import Mathlib

/-!
# ruuvitag-gollector: telemetry decoder and scan orchestration

A shallow embedding of `pkg/sensor/rawv1.go` and `pkg/scanner/scanner.go`.

* Bytes are `Fin 256`; the Go integer types `uint8`, `uint16`, `int16`, `int` are
  modelled by `Nat` and `Int` with the width made explicit where it matters.
* `float64` arithmetic is taken over the exact rationals `ℚ`.
* Go errors are values of an error type inside `Except` or `Option`.
* Goroutines, channels and `select` are modelled by the sequence of events the loop
  in question consumes, with the loop state passed explicitly.
-/

namespace Gollector

/-! ## pkg/sensor/rawv1.go -/

/-- One element of a Go `[]byte`. -/
abbrev Byte := Fin 256

/-- The two ways `io.ReadFull` (called by `binary.Read`) fails on a `bytes.Reader`:
`io.EOF` when no byte could be read, `io.ErrUnexpectedEOF` when some but not all. -/
inductive ReadError where
  | EOF
  | ErrUnexpectedEOF
  deriving DecidableEq, Repr

/-- The struct `DataFormat3` of `rawv1.go`: a `uint8` field is a `Byte`, a `uint16`
field a `Nat` below `65536`, an `int16` field an `Int`. -/
structure DataFormat3 where
  ManufacturerID : Nat
  DataFormat : Byte
  Humidity : Byte
  Temperature : Byte
  TemperatureFraction : Byte
  Pressure : Nat
  AccelerationX : Int
  AccelerationY : Int
  AccelerationZ : Int
  BatteryVoltageMv : Nat
  deriving DecidableEq, Repr

/-- The fields of `sensor.Data` that `rawv1.go` and `scanner.go` read or write.  The Go
zero value is the `default` of the structure. -/
structure Data where
  Addr : String := ""
  Name : String := ""
  Temperature : ℚ := 0
  Humidity : ℚ := 0
  Pressure : ℚ := 0
  Battery : Int := 0
  AccelerationX : Int := 0
  AccelerationY : Int := 0
  AccelerationZ : Int := 0
  Timestamp : Nat := 0
  deriving DecidableEq, Repr

instance : Inhabited Data := ⟨{}⟩

/-- Size in bytes of `DataFormat3` as `binary.Read` computes it: 2+1+1+1+1+2+2+2+2+2. -/
def dataFormat3Size : Nat := 2 + 1 + 1 + 1 + 1 + 2 + 2 + 2 + 2 + 2

/-- Model of `io.ReadFull` on a fresh `bytes.Reader`: the first `n` bytes, or the error. -/
def readFull (data : List Byte) (n : Nat) : Except ReadError (List Byte) :=
  if n ≤ data.length then .ok (data.take n)
  else if data.length = 0 then .error ReadError.EOF
  else .error ReadError.ErrUnexpectedEOF

/-- Go `binary.BigEndian.Uint16`: `uint16(b[1]) | uint16(b[0])<<8`. -/
def beUint16 (hi lo : Byte) : Nat := lo.val ||| ((hi.val <<< 8) % 65536)

/-- Go conversion `int16(u)` of a `uint16`: two's complement reinterpretation. -/
def toInt16 (u : Nat) : Int := if u < 32768 then (u : Int) else (u : Int) - 65536

/-- Decoding of the 16 byte buffer into the struct, field by field, big-endian. -/
def decodeDataFormat3 (bs : List Byte) : DataFormat3 :=
  let b : Nat → Byte := fun i => bs.getD i 0
  { ManufacturerID := beUint16 (b 0) (b 1)
    DataFormat := b 2
    Humidity := b 3
    Temperature := b 4
    TemperatureFraction := b 5
    Pressure := beUint16 (b 6) (b 7)
    AccelerationX := toInt16 (beUint16 (b 8) (b 9))
    AccelerationY := toInt16 (beUint16 (b 10) (b 11))
    AccelerationZ := toInt16 (beUint16 (b 12) (b 13))
    BatteryVoltageMv := beUint16 (b 14) (b 15) }

/-- Model of `binary.Read(reader, binary.BigEndian, &result)` for `DataFormat3`. -/
def binaryRead (data : List Byte) : Except ReadError DataFormat3 :=
  match readFull data dataFormat3Size with
  | .error e => .error e
  | .ok bs => .ok (decodeDataFormat3 bs)

/-- Go `ParseTemperature(t uint8, f uint8) float64`.  `mask` is the `uint8` value
`1 << 7`; `t &^ mask` (and-not) is `t & (mask ^ 0xff)` on eight bits. -/
def ParseTemperature (t f : Byte) : ℚ :=
  let mask : Nat := (1 <<< 7) % 256
  let isNegative : Bool := decide ((t.val &&& mask) > 0)
  let temp : ℚ := ((t.val &&& (mask ^^^ 255) : Nat) : ℚ) + (f.val : ℚ) / 100
  if isNegative then temp * (-1) else temp

/-- Go `ParseSensorFormat3(data []byte) (sd Data, err error)`. -/
def ParseSensorFormat3 (data : List Byte) : Except ReadError Data :=
  match binaryRead data with
  | .error e => .error e
  | .ok result =>
    .ok { Temperature := ParseTemperature result.Temperature result.TemperatureFraction
          Humidity := (result.Humidity.val : ℚ) / 2
          Pressure := (((result.Pressure : Int) + 50000 : Int) : ℚ) / 100
          Battery := (result.BatteryVoltageMv : Int)
          AccelerationX := result.AccelerationX
          AccelerationY := result.AccelerationY
          AccelerationZ := result.AccelerationZ }

/-! ## pkg/scanner/scanner.go -/

/-- What the scanner reads of a `ble.Advertisement`: `a.Addr().String()` and
`a.ManufacturerData()`. -/
structure Advertisement where
  Addr : String
  ManufacturerData : List Byte
  deriving DecidableEq, Repr

/-- A Go `map[string]string` as an association list; the value of a key is the value of
its first entry, the map is empty when the list is. -/
abbrev Peripherals := List (String × String)

/-- The comma-ok lookup `v, ok := m[k]`. -/
def Peripherals.get? (m : Peripherals) (k : String) : Option String := m.lookup k

/-- The plain lookup `m[k]`: the zero value `""` for a missing key. -/
def Peripherals.get (m : Peripherals) (k : String) : String := (m.lookup k).getD ""

/-- The keys of the map. -/
def Peripherals.keys (m : Peripherals) : List String := m.map Prod.fst

/-- The functions of package `sensor` that `scanner.go` calls and whose source is not
part of this development; they are parameters of the scanner model. -/
structure SensorPkg where
  IsRuuviTag : List Byte → Bool
  Parse : List Byte → Except String Data

/-- The interface `exporter.Exporter`, with the outside world a sink writes to passed
explicitly: `Export` returns the new world and the error (`none` for `nil`).  The
deadline of the context is not modelled. -/
structure Exporter (W : Type) where
  Name : String
  Export : W → Data → W × Option String

/-- The fields of `Scanner` that the modelled methods read. -/
structure Scanner (W : Type) where
  Exporters : List (Exporter W)
  peripherals : Peripherals

/-- One observed call `e.Export(ctx, m)`: the exporter, the measurement, the error. -/
structure ExportCall where
  exporter : String
  measurement : Data
  err : Option String
  deriving DecidableEq, Repr

/-- Outcome of `Scanner.export`: the world after, the calls made in order, the error. -/
structure ExportResult (W : Type) where
  world : W
  calls : List ExportCall
  err : Option String

/-- The `for _, e := range s.Exporters` loop of `Scanner.export`. -/
def exportLoop {W : Type} : List (Exporter W) → W → Data → ExportResult W
  | [], w, _ => { world := w, calls := [], err := none }
  | e :: es, w, m =>
    match e.Export w m with
    | (w1, some err) =>
      { world := w1, calls := [{ exporter := e.Name, measurement := m, err := some err }],
        err := some err }
    | (w1, none) =>
      let r := exportLoop es w1 m
      { world := r.world
        calls := { exporter := e.Name, measurement := m, err := none } :: r.calls
        err := r.err }

/-- Go `(s *Scanner) export(ctx, m) error`. -/
def Scanner.export {W : Type} (s : Scanner W) (w : W) (m : Data) : ExportResult W :=
  exportLoop s.Exporters w m

/-- Go `(s *Scanner) filter(a ble.Advertisement) bool`. -/
def Scanner.filter {W : Type} (s : Scanner W) (pkg : SensorPkg) (a : Advertisement) : Bool :=
  if !pkg.IsRuuviTag a.ManufacturerData then false
  else if s.peripherals.length == 0 then true
  else (s.peripherals.get? a.Addr).isSome

/-- Go `(s *Scanner) handler(ch)`, applied to one advertisement at time `now`: the
measurement sent on `ch`, or `none` when parsing fails and the data is only logged. -/
def Scanner.handler {W : Type} (s : Scanner W) (pkg : SensorPkg) (now : Nat)
    (a : Advertisement) : Option Data :=
  let data := a.ManufacturerData
  match pkg.Parse data with
  | .error _ => none
  | .ok sensorData =>
    let addr := a.Addr
    some { sensorData with Addr := addr, Name := s.peripherals.get addr, Timestamp := now }

/-- The wiring of `Scanner.Measurements`, `s.ble.Scan(ctx, false, s.handler(ch), s.filter)`:
the scan calls the handler on the advertisements that the filter accepts.  The result is
what one advertisement puts on the channel. -/
def Scanner.Measurements {W : Type} (s : Scanner W) (pkg : SensorPkg) (now : Nat)
    (a : Advertisement) : Option Data :=
  if s.filter pkg a then s.handler pkg now a else none

/-- Outcome of an export loop: the world after, the `Export` calls in order, the
measurements handed to `export` in order, the errors logged, whether `done <- 1` was
sent, and whether the loop has returned. -/
structure LoopResult (W : Type) where
  world : W
  calls : List ExportCall
  exported : List Data
  logged : List String
  signalled : Bool
  returned : Bool

/-- Go `(s *Scanner) doExportContinuously(ctx, measurements)` over the measurements
received before the context is done or the scanner quits. -/
def Scanner.doExportContinuously {W : Type} (s : Scanner W) : W → List Data → LoopResult W
  | w, [] =>
    { world := w, calls := [], exported := [], logged := [], signalled := false,
      returned := false }
  | w, m :: ms =>
    let r := s.export w m
    let rest := Scanner.doExportContinuously s r.world ms
    { rest with
      calls := r.calls ++ rest.calls
      exported := m :: rest.exported
      logged := r.err.toList ++ rest.logged }

/-- Modelled from the spec: `ContainsKeys(s.peripherals, seenPeripherals)` is not among
the sources; run-once ends when "every address present in a non-empty registry has
produced at least one accepted measurement", so it holds when every key of the registry
is a key of the seen set. -/
def ContainsKeys (peripherals : Peripherals) (seenPeripherals : List String) : Bool :=
  peripherals.keys.all (fun k => seenPeripherals.contains k)

/-- What one iteration of the `select` in `doExport` can receive. -/
inductive ExportEvent where
  | measurement (m : Data)
  | closed
  | ctxDone
  | done
  deriving DecidableEq, Repr

/-- The loop of `doExport` from a given `seenPeripherals` (the keys set to `true`). -/
def doExportLoop {W : Type} (s : Scanner W) : W → List String → List ExportEvent → LoopResult W
  | w, _, [] =>
    { world := w, calls := [], exported := [], logged := [], signalled := false,
      returned := false }
  | w, seenPeripherals, .measurement m :: evs =>
    let seen1 := seenPeripherals.insert m.Addr
    let r := s.export w m
    if s.peripherals.length > 0 && ContainsKeys s.peripherals seen1 then
      { world := r.world, calls := r.calls, exported := [m], logged := r.err.toList,
        signalled := true, returned := true }
    else
      let rest := doExportLoop s r.world seen1 evs
      { rest with
        calls := r.calls ++ rest.calls
        exported := m :: rest.exported
        logged := r.err.toList ++ rest.logged }
  | w, _, .closed :: _ =>
    { world := w, calls := [], exported := [], logged := [], signalled := true,
      returned := true }
  | w, _, .ctxDone :: _ =>
    { world := w, calls := [], exported := [], logged := [], signalled := false,
      returned := true }
  | w, _, .done :: _ =>
    { world := w, calls := [], exported := [], logged := [], signalled := false,
      returned := true }

/-- Go `(s *Scanner) doExport(ctx, measurements, done)`: the loop started with an empty
`seenPeripherals`. -/
def Scanner.doExport {W : Type} (s : Scanner W) (w : W) (evs : List ExportEvent) :
    LoopResult W :=
  doExportLoop s w [] evs

/-- The error returned by `s.ScanOnce(ctx)` as the `switch` of `listen` tells it apart. -/
inductive ScanErr where
  | nil
  | DeadlineExceeded
  | Canceled
  | other (msg : String)
  deriving DecidableEq, Repr

/-- What one iteration of the `select` in `listen` can receive: a tick, on which the
scan is run and returns `err`, or the end of the context, or the quit signal. -/
inductive ListenEvent where
  | tick (err : ScanErr)
  | ctxDone
  | quit
  deriving DecidableEq, Repr

/-- How `listen` stands after some events: still in the loop, returned (scan canceled,
context done or quit), or stopped by `logger.Fatal` after too many failures. -/
inductive ListenStatus where
  | running
  | returned
  | fatal
  deriving DecidableEq, Repr

/-- State of `listen` after some events: its status, the local `failures`, and the
number of ticks handled. -/
structure ListenState where
  status : ListenStatus
  failures : Nat
  ticks : Nat
  deriving DecidableEq, Repr

/-- The `for { select { ... } }` of `listen` from a given state. -/
def listenLoop : Nat → Nat → List ListenEvent → ListenState
  | failures, ticks, [] => { status := .running, failures := failures, ticks := ticks }
  | failures, ticks, .tick err :: evs =>
    match err with
    | .DeadlineExceeded => listenLoop failures (ticks + 1) evs
    | .Canceled => { status := .returned, failures := failures, ticks := ticks + 1 }
    | .nil => listenLoop failures (ticks + 1) evs
    | .other _ =>
      let failures1 := failures + 1
      if failures1 == 3 then { status := .fatal, failures := failures1, ticks := ticks + 1 }
      else listenLoop failures1 (ticks + 1) evs
  | failures, ticks, .ctxDone :: _ =>
    { status := .returned, failures := failures, ticks := ticks }
  | failures, ticks, .quit :: _ =>
    { status := .returned, failures := failures, ticks := ticks }

/-- Go `(s *Scanner) listen(ctx, ticks, scanTimeout)`: the loop with `failures := 0`. -/
def Scanner.listen (evs : List ListenEvent) : ListenState := listenLoop 0 0 evs

/-- Outcome of `ScanWithInterval`: the error returned, and whether the background
goroutine (the sleep, the first scan and the interval loop) was started. -/
structure IntervalStart where
  err : Option String
  started : Bool
  deriving DecidableEq, Repr

/-- Go `(s *Scanner) ScanWithInterval(ctx, scanInterval) error`, up to the start of the
goroutine; a `time.Duration` is a signed count of nanoseconds. -/
def Scanner.ScanWithInterval (scanInterval : Int) : IntervalStart :=
  if scanInterval == 0 then
    { err := some "scan interval must be greater than zero", started := false }
  else
    { err := none, started := true }

/-- Go `runAsDaemon` of `cmd/collector/main.go`, as far as the choice of scan mode:
`true` when it calls `ScanWithInterval`, `false` when it calls `ScanContinuously`. -/
def runAsDaemonUsesInterval (scanInterval : Int) : Bool := decide (scanInterval > 0)

/-! ## Concrete inputs used to instantiate the theorems -/

/-- An instance of the `sensor` parameters for concrete runs: the family check compares
the first three bytes with the identifier `0x99 0x04` and format version `3`, parsing is
`ParseSensorFormat3`. -/
def exampleSensorPkg : SensorPkg where
  IsRuuviTag := fun data => data.take 3 == [0x99, 0x04, 0x03]
  Parse := fun data =>
    match ParseSensorFormat3 data with
    | .ok sd => .ok sd
    | .error _ => .error "invalid data"

/-- A scanner without exporters over a one-entry registry. -/
def exampleScanner : Scanner Unit where
  Exporters := []
  peripherals := [("cc:ca:7e:52:cc:34", "Backyard")]

/-- A frame with the family signature of `exampleSensorPkg`: humidity byte 90,
temperature bytes 22 and 10, pressure bytes 196 and 24, battery bytes 10 and 195. -/
def exampleFrame : List Byte :=
  [0x99, 0x04, 0x03, 90, 22, 10, 196, 24, 0, 0, 0, 0, 0, 0, 10, 195]

/-- A frame of another manufacturer (identifier bytes `0x4C 0x00`, type byte `2`), of the
same length as the fixed record. -/
def foreignFrame : List Byte :=
  [0x4C, 0x00, 0x02, 0x15, 0, 0, 0, 0, 0, 0, 0, 0, 0, 0, 0, 0]

/-- The calls of a sink that succeeds: one record per exporter, without error. -/
def okCalls {W : Type} (es : List (Exporter W)) (m : Data) : List ExportCall :=
  es.map (fun e => { exporter := e.Name, measurement := m, err := none })

/-- A sink that counts the calls it receives in the world and always succeeds. -/
def countingSink (name : String) : Exporter Nat where
  Name := name
  Export := fun w _ => (w + 1, none)

/-- A sink that fails on the very first `Export` call of the run and succeeds after. -/
def failingFirstSink (name : String) : Exporter Nat where
  Name := name
  Export := fun w _ => (w + 1, if w == 0 then some "export failed" else none)

/-- A scanner with the sinks `A`, `B`, `C` in this order, `A` failing on its first call,
over a registry of two addresses. -/
def abcScanner : Scanner Nat where
  Exporters := [failingFirstSink "A", countingSink "B", countingSink "C"]
  peripherals := [("aa:aa", "Attic"), ("bb:bb", "Basement")]

/-- A measurement with nothing but its address set. -/
def measurementFrom (addr : String) : Data := { Addr := addr }

/-- In the spec's words: every address of the registry has produced at least one of the
measurements `ms`. -/
def allSeen (peripherals : Peripherals) (ms : List Data) : Prop :=
  ∀ k ∈ peripherals.keys, k ∈ ms.map (fun m => m.Addr)

instance (peripherals : Peripherals) (ms : List Data) : Decidable (allSeen peripherals ms) := by
  unfold allSeen; infer_instance

/-! ## cmd/collector/main.go: the registry input -/

/-- The assignment `m[k] = v` on a Go map: the entry for `k` is replaced, so every key
has one entry and `len` counts the keys. -/
def Peripherals.set (m : Peripherals) (k v : String) : Peripherals :=
  (k, v) :: m.filter (fun kv => kv.1 != k)

/-- The first occurrence of `sep`: the characters before it and those after it, or
`none` when `sep` does not occur (Go `strings.Index` and the two slices around it). -/
def cutAt (sep : Char) : List Char → Option (List Char × List Char)
  | [] => none
  | c :: cs =>
    if c = sep then some ([], cs)
    else (cutAt sep cs).map (fun p => (c :: p.1, p.2))

/-- Go `strings.SplitN(s, sep, 2)` for a separator of one character: the text before
the first separator and the text after it, or `s` alone when there is no separator. -/
def SplitN (s : String) (sep : Char) : List String :=
  match cutAt sep s.toList with
  | none => [s]
  | some (a, b) => [String.mk a, String.mk b]

/-- The two functions of the Go standard library package `strings` that
`parseRuuviTags` applies to its tokens; their Unicode tables are outside the repository
and they are parameters of the model. -/
structure StringsPkg where
  TrimSpace : String → String
  ToLower : String → String

/-- The `for _, rt := range ruuviTags` loop of `parseRuuviTags` from the map `m`. -/
def parseRuuviTagsLoop (pkg : StringsPkg) : Peripherals → List String → Except String Peripherals
  | m, [] => .ok m
  | m, rt :: rest =>
    let tokens := SplitN rt '='
    if tokens.length != 2 then .error ("invalid RuuviTag entry: " ++ rt)
    else
      let addr := pkg.ToLower (pkg.TrimSpace (tokens.getD 0 ""))
      let name := pkg.TrimSpace (tokens.getD 1 "")
      parseRuuviTagsLoop pkg (m.set addr name) rest

/-- Go `parseRuuviTags(ruuviTags []string) (map[string]string, error)`. -/
def parseRuuviTags (pkg : StringsPkg) (ruuviTags : List String) : Except String Peripherals :=
  parseRuuviTagsLoop pkg [] ruuviTags

/-- In the spec's words: the entry `rt` reads `before=after` at its first `=`, `addr` is
`before` trimmed and lower-cased, and `name` is `after` trimmed. -/
def entryOf (pkg : StringsPkg) (rt addr name : String) : Prop :=
  ∃ before after : List Char,
    rt.toList = before ++ '=' :: after ∧ '=' ∉ before ∧
    addr = pkg.ToLower (pkg.TrimSpace (String.mk before)) ∧
    name = pkg.TrimSpace (String.mk after)

/-- White space of the ASCII range, as `unicode.IsSpace` has it. -/
def isAsciiSpace (c : Char) : Bool :=
  c == ' ' || c == '\t' || c == '\n' || c == '\r' || c.toNat == 11 || c.toNat == 12

/-- An instance of the `strings` parameters for concrete runs on ASCII text. -/
def asciiStrings : StringsPkg where
  TrimSpace := fun s =>
    String.mk ((s.toList.dropWhile isAsciiSpace).reverse.dropWhile isAsciiSpace).reverse
  ToLower := fun s => String.mk (s.toList.map Char.toLower)

/-! ## pkg/scanner/scanner.go: run-once and the interval goroutine -/

/-- Outcome of `ScanOnce`: the error returned, and the run of `doExport` when the scan
was started (`none` when `ScanOnce` returned before starting it). -/
structure ScanOnceResult (W : Type) where
  err : Option String
  scan : Option (LoopResult W)

/-- Go `(s *Scanner) ScanOnce(ctx) error`: the check of the registry, then the scan
whose export loop receives `evs` until `ScanOnce` returns `nil`. -/
def Scanner.ScanOnce {W : Type} (s : Scanner W) (w : W) (evs : List ExportEvent) :
    ScanOnceResult W :=
  if s.peripherals.length == 0 then
    { err := some "at least one peripheral must be specified", scan := none }
  else
    { err := none, scan := some (s.doExport w evs) }

/-- What the first `select` of the goroutine of `ScanWithInterval` receives: the end of
the initial delay, the end of the context, or the quit signal. -/
inductive WakeEvent where
  | firstRun
  | ctxDone
  | quit
  deriving DecidableEq, Repr

/-- What the `select` of `listen` receives when run by the goroutine: a tick, with the
events that the scan of this tick hands to its export loop, or the end of the context,
or the quit signal. -/
inductive IntervalEvent where
  | tick (evs : List ExportEvent)
  | ctxDone
  | quit
  deriving DecidableEq, Repr

/-- The error of `ScanOnce` as the `switch` of `listen` sees it; `ScanOnce` returns
`nil` or an error made by `fmt.Errorf`, never a context error. -/
def ScanErr.ofError : Option String → ScanErr
  | none => .nil
  | some msg => .other msg

/-- Outcome of the goroutine of `ScanWithInterval`: the first scan when it was run, the
errors logged as "Scan failed", and the state of `listen` when `listen` was entered. -/
structure IntervalRun (W : Type) where
  firstScan : Option (ScanOnceResult W)
  logged : List String
  listened : Option ListenState

/-- The body of `go func() { ... }()` in `ScanWithInterval`: wait for the first run, run
`ScanOnce`, return when it fails, otherwise enter `listen`, where each tick runs
`ScanOnce` again.  The length of the delay and of the ticks is not modelled; of the
scans run by `listen` only the returned error is kept, which does not depend on the
world they start from. -/
def Scanner.intervalGoroutine {W : Type} (s : Scanner W) (w : W) (wake : WakeEvent)
    (first : List ExportEvent) (events : List IntervalEvent) : IntervalRun W :=
  match wake with
  | .ctxDone => { firstScan := none, logged := [], listened := none }
  | .quit => { firstScan := none, logged := [], listened := none }
  | .firstRun =>
    let r := s.ScanOnce w first
    match r.err with
    | some err => { firstScan := some r, logged := [err], listened := none }
    | none =>
      let evs := events.map (fun ev =>
        match ev with
        | .tick evs => ListenEvent.tick (ScanErr.ofError (s.ScanOnce w evs).err)
        | .ctxDone => ListenEvent.ctxDone
        | .quit => ListenEvent.quit)
      { firstScan := some r, logged := [], listened := some (Scanner.listen evs) }

/-- A scanner without exporters and with an empty registry. -/
def emptyRegistryScanner : Scanner Unit where
  Exporters := []
  peripherals := []

/-! ## pkg/scanner/scanner.go: the interval loop run on the scanner -/

theorem beUint16_eq (hi lo : Byte) : beUint16 hi lo = 256 * hi.val + lo.val := by
  have hlo : lo.val < 2 ^ 8 := lo.isLt
  have hhi : hi.val < 256 := hi.isLt
  have h1 : (hi.val <<< 8) % 65536 = 2 ^ 8 * hi.val := by
    rw [Nat.shiftLeft_eq, Nat.mod_eq_of_lt (by omega)]; ring
  unfold beUint16
  rw [h1, Nat.lor_comm, ← Nat.mul_add_lt_is_or hlo]

set_option maxRecDepth 100000 in
theorem signBit_iff (t : Byte) : (t.val &&& ((1 <<< 7) % 256) > 0) ↔ 128 ≤ t.val := by
  revert t; decide

set_option maxRecDepth 100000 in
theorem clearSign_eq (t : Byte) : t.val &&& (((1 <<< 7) % 256) ^^^ 255) = t.val % 128 := by
  revert t; decide

theorem toInt16_beUint16 (hi lo : Byte) :
    toInt16 (beUint16 hi lo) =
      (256 * hi.val + lo.val : Int) - (if 128 ≤ hi.val then 65536 else 0) := by
  have hlo : lo.val < 256 := lo.isLt
  rw [beUint16_eq]
  unfold toInt16
  split_ifs <;> push_cast <;> omega

theorem binaryRead_cons16 (b0 b1 b2 b3 b4 b5 b6 b7 b8 b9 b10 b11 b12 b13 b14 b15 : Byte)
    (rest : List Byte) :
    binaryRead (b0 :: b1 :: b2 :: b3 :: b4 :: b5 :: b6 :: b7 :: b8 :: b9 :: b10 :: b11 ::
        b12 :: b13 :: b14 :: b15 :: rest) =
      .ok { ManufacturerID := beUint16 b0 b1
            DataFormat := b2
            Humidity := b3
            Temperature := b4
            TemperatureFraction := b5
            Pressure := beUint16 b6 b7
            AccelerationX := toInt16 (beUint16 b8 b9)
            AccelerationY := toInt16 (beUint16 b10 b11)
            AccelerationZ := toInt16 (beUint16 b12 b13)
            BatteryVoltageMv := beUint16 b14 b15 } := by
  simp [binaryRead, readFull, dataFormat3Size, decodeDataFormat3]

theorem ParseSensorFormat3_of_le (data : List Byte) (h : 16 ≤ data.length) :
    ParseSensorFormat3 data =
      .ok { Temperature := ParseTemperature (data.getD 4 0) (data.getD 5 0)
            Humidity := ((data.getD 3 0).val : ℚ) / 2
            Pressure := (((beUint16 (data.getD 6 0) (data.getD 7 0) : Int) + 50000 : Int) : ℚ) / 100
            Battery := (beUint16 (data.getD 14 0) (data.getD 15 0) : Int)
            AccelerationX := toInt16 (beUint16 (data.getD 8 0) (data.getD 9 0))
            AccelerationY := toInt16 (beUint16 (data.getD 10 0) (data.getD 11 0))
            AccelerationZ := toInt16 (beUint16 (data.getD 12 0) (data.getD 13 0)) } := by
  match data, h with
  | b0 :: b1 :: b2 :: b3 :: b4 :: b5 :: b6 :: b7 :: b8 :: b9 :: b10 :: b11 ::
        b12 :: b13 :: b14 :: b15 :: rest, _ =>
    simp [ParseSensorFormat3, binaryRead_cons16]

theorem ParseSensorFormat3_cons16
    (b0 b1 b2 b3 b4 b5 b6 b7 b8 b9 b10 b11 b12 b13 b14 b15 : Byte) (rest : List Byte) :
    ParseSensorFormat3 (b0 :: b1 :: b2 :: b3 :: b4 :: b5 :: b6 :: b7 :: b8 :: b9 :: b10 ::
        b11 :: b12 :: b13 :: b14 :: b15 :: rest) =
      .ok { Temperature := ParseTemperature b4 b5
            Humidity := (b3.val : ℚ) / 2
            Pressure := (((beUint16 b6 b7 : Int) + 50000 : Int) : ℚ) / 100
            Battery := (beUint16 b14 b15 : Int)
            AccelerationX := toInt16 (beUint16 b8 b9)
            AccelerationY := toInt16 (beUint16 b10 b11)
            AccelerationZ := toInt16 (beUint16 b12 b13) } := by
  simp only [ParseSensorFormat3, binaryRead_cons16]

theorem ParseSensorFormat3_of_lt (data : List Byte) (h : data.length < 16) :
    ParseSensorFormat3 data =
      .error (if data.length = 0 then ReadError.EOF else ReadError.ErrUnexpectedEOF) := by
  have h1 : ¬ 16 ≤ data.length := by omega
  by_cases h0 : data.length = 0 <;>
    simp [ParseSensorFormat3, binaryRead, readFull, dataFormat3Size, h1, h0]

theorem getD_eq_of_take_eq (d1 d2 : List Byte) (n i : Nat) (hi : i < n)
    (h : d1.take n = d2.take n) : d1.getD i 0 = d2.getD i 0 := by
  have e1 : (d1.take n).getD i 0 = d1.getD i 0 := by
    simp [List.getD, List.getElem?_take, hi]
  have e2 : (d2.take n).getD i 0 = d2.getD i 0 := by
    simp [List.getD, List.getElem?_take, hi]
  rw [← e1, ← e2, h]

/-! ## Decoder: the claims -/

/-- C1: every frame of at least 16 bytes `b0 .. b15` (followed by any `rest`) is decoded
successfully by `ParseSensorFormat3`, with humidity `b3 / 2`, pressure
`(256*b6 + b7 + 50000) / 100`, battery `256*b14 + b15`, and each acceleration the signed
16-bit big-endian value of its two bytes (the unsigned value, less `65536` when the top
bit of the high byte is set), unscaled; humidity byte 90 gives 45 and the pressure field
50200 (bytes 196, 24) gives 1002. -/
theorem ParseSensorFormat3_fields :
    (∀ (b0 b1 b2 b3 b4 b5 b6 b7 b8 b9 b10 b11 b12 b13 b14 b15 : Byte) (rest : List Byte),
      ∃ sd : Data,
        ParseSensorFormat3 (b0 :: b1 :: b2 :: b3 :: b4 :: b5 :: b6 :: b7 :: b8 :: b9 ::
          b10 :: b11 :: b12 :: b13 :: b14 :: b15 :: rest) = .ok sd ∧
        sd.Humidity = (b3.val : ℚ) / 2 ∧
        sd.Pressure = (256 * (b6.val : ℚ) + (b7.val : ℚ) + 50000) / 100 ∧
        sd.Battery = 256 * (b14.val : Int) + (b15.val : Int) ∧
        sd.AccelerationX =
          (256 * b8.val + b9.val : Int) - (if 128 ≤ b8.val then 65536 else 0) ∧
        sd.AccelerationY =
          (256 * b10.val + b11.val : Int) - (if 128 ≤ b10.val then 65536 else 0) ∧
        sd.AccelerationZ =
          (256 * b12.val + b13.val : Int) - (if 128 ≤ b12.val then 65536 else 0)) ∧
    (∀ (b0 b1 b2 b4 b5 b8 b9 b10 b11 b12 b13 b14 b15 : Byte) (rest : List Byte),
      ∃ sd : Data,
        ParseSensorFormat3 (b0 :: b1 :: b2 :: 90 :: b4 :: b5 :: 196 :: 24 :: b8 :: b9 ::
          b10 :: b11 :: b12 :: b13 :: b14 :: b15 :: rest) = .ok sd ∧
        256 * 196 + 24 = 50200 ∧ sd.Humidity = 45 ∧ sd.Pressure = 1002) := by
  refine ⟨?_, ?_⟩
  · intro b0 b1 b2 b3 b4 b5 b6 b7 b8 b9 b10 b11 b12 b13 b14 b15 rest
    refine ⟨_, ParseSensorFormat3_cons16 _ _ _ _ _ _ _ _ _ _ _ _ _ _ _ _ _,
      rfl, ?_, ?_, ?_, ?_, ?_⟩
    · simp only [beUint16_eq]; push_cast; ring
    · simp only [beUint16_eq]; push_cast; ring
    · exact toInt16_beUint16 b8 b9
    · exact toInt16_beUint16 b10 b11
    · exact toInt16_beUint16 b12 b13
  · intro b0 b1 b2 b4 b5 b8 b9 b10 b11 b12 b13 b14 b15 rest
    refine ⟨_, ParseSensorFormat3_cons16 _ _ _ _ _ _ _ _ _ _ _ _ _ _ _ _ _,
      by norm_num, ?_, ?_⟩
    · show (((90 : Byte).val : Nat) : ℚ) / 2 = 45
      rw [show (90 : Byte).val = 90 from rfl]; norm_num
    · show (((beUint16 196 24 : Int) + 50000 : Int) : ℚ) / 100 = 1002
      rw [beUint16_eq, show (196 : Byte).val = 196 from rfl, show (24 : Byte).val = 24 from rfl]
      norm_num

theorem ParseTemperature_eq (t f : Byte) :
    ParseTemperature t f =
      if t.val.testBit 7 then -(((t.val % 128 : Nat) : ℚ) + (f.val : ℚ) / 100)
      else ((t.val % 128 : Nat) : ℚ) + (f.val : ℚ) / 100 := by
  have hbit : t.val.testBit 7 = decide (128 ≤ t.val) := by
    have ht : t.val < 256 := t.isLt
    rw [Nat.testBit_to_div_mod]
    by_cases h : 128 ≤ t.val
    · have : t.val / 2 ^ 7 % 2 = 1 := by omega
      rw [this]; simp [h]
    · have : t.val / 2 ^ 7 % 2 = 0 := by omega
      rw [this]; simp [h]
  unfold ParseTemperature
  simp only [clearSign_eq, hbit]
  by_cases h : 128 ≤ t.val
  · have h2 : t.val &&& ((1 <<< 7) % 256) > 0 := (signBit_iff t).2 h
    simp only [h, h2, decide_True, if_true]
    ring
  · have h2 : ¬ (t.val &&& ((1 <<< 7) % 256) > 0) := fun c => h ((signBit_iff t).1 c)
    simp only [h, h2, decide_False, Bool.false_eq_true, if_false]

theorem ParseTemperature_22_10 : ParseTemperature 22 10 = 2210 / 100 := by
  have v22 : (22 : Byte).val = 22 := rfl
  have v10 : (10 : Byte).val = 10 := rfl
  have t22 : (22 : Nat).testBit 7 = false := by decide
  rw [ParseTemperature_eq, v22, v10, t22]; norm_num

theorem exampleFrame_parsed :
    ParseSensorFormat3 exampleFrame =
      .ok { Temperature := 2210 / 100, Humidity := 45, Pressure := 1002, Battery := 2755 } := by
  unfold exampleFrame
  rw [ParseSensorFormat3_cons16, ParseTemperature_22_10, beUint16_eq, beUint16_eq, beUint16_eq]
  rw [show (90 : Byte).val = 90 from rfl, show (196 : Byte).val = 196 from rfl,
    show (24 : Byte).val = 24 from rfl, show (10 : Byte).val = 10 from rfl,
    show (195 : Byte).val = 195 from rfl, show (0 : Byte).val = 0 from rfl]
  norm_num [toInt16]

/-- C2: for all bytes `t` and `f`, `ParseTemperature t f` is the low seven bits of `t`
plus `f / 100` when bit 7 of `t` is clear, and the negation of that sum when bit 7 is
set; `(22, 10)` gives `22.10` and `(150, 10)`, the same with the sign bit set, gives
`-22.10`. -/
theorem ParseTemperature_sign_magnitude :
    (∀ t f : Byte,
      ParseTemperature t f =
        if t.val.testBit 7 then -(((t.val % 128 : Nat) : ℚ) + (f.val : ℚ) / 100)
        else ((t.val % 128 : Nat) : ℚ) + (f.val : ℚ) / 100) ∧
    ParseTemperature 22 10 = 2210 / 100 ∧
    (150 : Byte).val = 22 + 128 ∧
    ParseTemperature 150 10 = -(2210 / 100) := by
  have v150 : (150 : Byte).val = 150 := rfl
  have v10 : (10 : Byte).val = 10 := rfl
  have t150 : (150 : Nat).testBit 7 = true := by decide
  refine ⟨ParseTemperature_eq, ParseTemperature_22_10, rfl, ?_⟩
  rw [ParseTemperature_eq, v150, v10, t150]; norm_num

/-- C3: `ParseSensorFormat3` returns an error exactly for the byte sequences shorter than
the 16-byte record; every sequence of 16 or more bytes decodes successfully; and two
sequences that agree on their first 16 bytes decode to the same result, so bytes after
the 16th do not matter. -/
theorem ParseSensorFormat3_error_iff_short :
    (∀ data : List Byte, (∃ e, ParseSensorFormat3 data = .error e) ↔ data.length < 16) ∧
    (∀ data : List Byte, 16 ≤ data.length → ∃ sd, ParseSensorFormat3 data = .ok sd) ∧
    (∀ d1 d2 : List Byte, 16 ≤ d1.length → d1.take 16 = d2.take 16 →
      ParseSensorFormat3 d1 = ParseSensorFormat3 d2) := by
  refine ⟨?_, ?_, ?_⟩
  · intro data
    constructor
    · rintro ⟨e, he⟩
      by_contra hlt
      rw [ParseSensorFormat3_of_le data (by omega)] at he
      cases he
    · intro hlt
      exact ⟨_, ParseSensorFormat3_of_lt data hlt⟩
  · intro data h
    exact ⟨_, ParseSensorFormat3_of_le data h⟩
  · intro d1 d2 h1 ht
    have h2 : 16 ≤ d2.length := by
      have := congrArg List.length ht
      simp only [List.length_take] at this
      omega
    rw [ParseSensorFormat3_of_le d1 h1, ParseSensorFormat3_of_le d2 h2]
    have g : ∀ i, i < 16 → d1.getD i 0 = d2.getD i 0 :=
      fun i hi => getD_eq_of_take_eq d1 d2 16 i hi ht
    rw [g 3 (by norm_num), g 4 (by norm_num), g 5 (by norm_num), g 6 (by norm_num),
      g 7 (by norm_num), g 8 (by norm_num), g 9 (by norm_num), g 10 (by norm_num),
      g 11 (by norm_num), g 12 (by norm_num), g 13 (by norm_num), g 14 (by norm_num),
      g 15 (by norm_num)]

/-- Witness for C3 at the all-zero frames of 15, 16 and 17 bytes. -/
theorem ParseSensorFormat3_error_iff_short_witness :
    (∃ e, ParseSensorFormat3 (List.replicate 15 0) = .error e) ∧
    (∃ sd, ParseSensorFormat3 (List.replicate 16 0) = .ok sd) ∧
    ParseSensorFormat3 (List.replicate 16 0 ++ [255]) =
      ParseSensorFormat3 (List.replicate 16 0) :=
  ⟨(ParseSensorFormat3_error_iff_short.1 _).2 (by decide),
   ParseSensorFormat3_error_iff_short.2.1 _ (by decide),
   ParseSensorFormat3_error_iff_short.2.2 _ _ (by decide) (by decide)⟩

/-! ## Filter and handler -/

theorem lookup_isSome_iff (m : Peripherals) (k : String) :
    (m.get? k).isSome = true ↔ k ∈ m.keys := by
  unfold Peripherals.get? Peripherals.keys
  induction m with
  | nil => simp
  | cons kv rest ih =>
    obtain ⟨k1, v1⟩ := kv
    by_cases h : k = k1
    · subst h; simp [List.lookup]
    · have hb : (k == k1) = false := by simpa using h
      simp only [List.lookup, hb, List.map_cons, List.mem_cons, h, false_or]
      exact ih

theorem filter_eq_true_iff {W : Type} (s : Scanner W) (pkg : SensorPkg) (a : Advertisement) :
    s.filter pkg a = true ↔
      pkg.IsRuuviTag a.ManufacturerData = true ∧
        (s.peripherals = [] ∨ a.Addr ∈ s.peripherals.keys) := by
  unfold Scanner.filter
  by_cases hr : pkg.IsRuuviTag a.ManufacturerData = true
  · by_cases he : s.peripherals = []
    · simp [hr, he]
    · have hl : ¬ s.peripherals.length = 0 := by
        intro h; exact he (List.length_eq_zero.1 h)
      simp only [hr, Bool.not_true, Bool.false_eq_true, if_false, beq_iff_eq, hl, he,
        true_and, false_or]
      exact lookup_isSome_iff s.peripherals a.Addr
  · have hf : pkg.IsRuuviTag a.ManufacturerData = false := by simpa using hr
    simp [hf]

theorem handler_eq_some {W : Type} (s : Scanner W) (pkg : SensorPkg) (now : Nat)
    (a : Advertisement) (m : Data) (h : s.handler pkg now a = some m) :
    m.Addr = a.Addr ∧ m.Name = s.peripherals.get a.Addr ∧ m.Timestamp = now := by
  unfold Scanner.handler at h
  cases hp : pkg.Parse a.ManufacturerData with
  | error e => simp [hp] at h
  | ok sd =>
    simp only [hp, Option.some.injEq] at h
    subst h
    exact ⟨rfl, rfl, rfl⟩

/-- C4 (as stated, refuted): `foreignFrame`, whose signature bytes are those of another
manufacturer, is decoded by `ParseSensorFormat3` without error; and there is no
signature check at all, rejecting at least one signature, under which every frame with a
rejected signature makes `ParseSensorFormat3` fail. -/
theorem ParseSensorFormat3_decodes_foreign_signature :
    (∃ sd : Data, ParseSensorFormat3 foreignFrame = .ok sd ∧
      sd.Humidity = 21 / 2 ∧ sd.Pressure = 500 ∧ sd.Battery = 0) ∧
    ¬ ∃ accepts : Byte → Byte → Byte → Bool,
        (∃ s0 s1 s2, accepts s0 s1 s2 = false) ∧
        ∀ (s0 s1 s2 : Byte) (body : List Byte), accepts s0 s1 s2 = false →
          ∃ e, ParseSensorFormat3 (s0 :: s1 :: s2 :: body) = .error e := by
  refine ⟨⟨_, ParseSensorFormat3_cons16 _ _ _ _ _ _ _ _ _ _ _ _ _ _ _ _ _, ?_, ?_, ?_⟩, ?_⟩
  · show (((0x15 : Byte).val : Nat) : ℚ) / 2 = 21 / 2
    rw [show (0x15 : Byte).val = 21 from rfl]; norm_num
  · show (((beUint16 0 0 : Int) + 50000 : Int) : ℚ) / 100 = 500
    rw [beUint16_eq, show (0 : Byte).val = 0 from rfl]; norm_num
  · show ((beUint16 0 0 : Nat) : Int) = 0
    rw [beUint16_eq, show (0 : Byte).val = 0 from rfl]; norm_num
  · rintro ⟨accepts, ⟨s0, s1, s2, hs⟩, hall⟩
    obtain ⟨e, he⟩ := hall s0 s1 s2 (List.replicate 13 0) hs
    rw [ParseSensorFormat3_of_le _ (by simp)] at he
    cases he

/-- C4 (amended): `ParseSensorFormat3` does not look at the signature bytes: changing
the first three bytes of a frame never changes its result, and every frame of 16 or more
bytes is decoded.  A frame whose signature does not match the sensor family
(`IsRuuviTag` false) is rejected by `Scanner.filter`, whatever its length, so the scan
puts no measurement on the channel for it. -/
theorem ParseSensorFormat3_ignores_signature :
    (∀ (s0 s1 s2 t0 t1 t2 : Byte) (body : List Byte),
      ParseSensorFormat3 (s0 :: s1 :: s2 :: body) =
        ParseSensorFormat3 (t0 :: t1 :: t2 :: body)) ∧
    (∀ data : List Byte, 16 ≤ data.length → ∃ sd, ParseSensorFormat3 data = .ok sd) ∧
    (∀ (W : Type) (s : Scanner W) (pkg : SensorPkg) (now : Nat) (a : Advertisement),
      pkg.IsRuuviTag a.ManufacturerData = false →
        s.filter pkg a = false ∧ s.Measurements pkg now a = none) := by
  refine ⟨?_, ?_, ?_⟩
  · intro s0 s1 s2 t0 t1 t2 body
    by_cases h : 13 ≤ body.length
    · rw [ParseSensorFormat3_of_le _ (by simpa using by omega),
        ParseSensorFormat3_of_le _ (by simpa using by omega)]
      rfl
    · rw [ParseSensorFormat3_of_lt _ (by simpa using by omega),
        ParseSensorFormat3_of_lt _ (by simpa using by omega)]
      simp
  · intro data h
    exact ⟨_, ParseSensorFormat3_of_le data h⟩
  · intro W s pkg now a h
    have hf : s.filter pkg a = false := by simp [Scanner.filter, h]
    exact ⟨hf, by simp [Scanner.Measurements, hf]⟩

/-- Witness for C4 (amended): `foreignFrame` against `exampleFrame`, and the example
scanner on an advertisement carrying `foreignFrame`. -/
theorem ParseSensorFormat3_ignores_signature_witness :
    ParseSensorFormat3 (0x4C :: 0x00 :: 0x02 :: exampleFrame.drop 3) =
      ParseSensorFormat3 (0x99 :: 0x04 :: 0x03 :: exampleFrame.drop 3) ∧
    (∃ sd, ParseSensorFormat3 foreignFrame = .ok sd) ∧
    (exampleScanner.filter exampleSensorPkg ⟨"cc:ca:7e:52:cc:34", foreignFrame⟩ = false ∧
      exampleScanner.Measurements exampleSensorPkg 0 ⟨"cc:ca:7e:52:cc:34", foreignFrame⟩ =
        none) :=
  ⟨ParseSensorFormat3_ignores_signature.1 _ _ _ _ _ _ _,
   ParseSensorFormat3_ignores_signature.2.1 _ (by decide),
   ParseSensorFormat3_ignores_signature.2.2 Unit exampleScanner exampleSensorPkg 0
     ⟨"cc:ca:7e:52:cc:34", foreignFrame⟩ (by decide)⟩

/-- C5: `Scanner.filter` accepts an advertisement exactly when its frame passes the
family check `IsRuuviTag` and the registry is empty or has the address as a key; a
frame that fails the family check is rejected whatever the registry holds. -/
theorem Scanner_filter_accepts_iff :
    (∀ (W : Type) (s : Scanner W) (pkg : SensorPkg) (a : Advertisement),
      s.filter pkg a = true ↔
        pkg.IsRuuviTag a.ManufacturerData = true ∧
          (s.peripherals = [] ∨ a.Addr ∈ s.peripherals.keys)) ∧
    (∀ (W : Type) (s : Scanner W) (pkg : SensorPkg) (a : Advertisement),
      pkg.IsRuuviTag a.ManufacturerData = false → s.filter pkg a = false) := by
  refine ⟨fun W s pkg a => filter_eq_true_iff s pkg a, ?_⟩
  intro W s pkg a h
  simp [Scanner.filter, h]

/-- Witness for C5: the example scanner accepts its registered address with a family
frame, and rejects the same address with a foreign frame. -/
theorem Scanner_filter_accepts_iff_witness :
    exampleScanner.filter exampleSensorPkg ⟨"cc:ca:7e:52:cc:34", exampleFrame⟩ = true ∧
    exampleScanner.filter exampleSensorPkg ⟨"cc:ca:7e:52:cc:34", foreignFrame⟩ = false :=
  ⟨(Scanner_filter_accepts_iff.1 Unit exampleScanner exampleSensorPkg
      ⟨"cc:ca:7e:52:cc:34", exampleFrame⟩).2
      ⟨by decide, Or.inr (by simp [exampleScanner, Peripherals.keys])⟩,
   Scanner_filter_accepts_iff.2 Unit exampleScanner exampleSensorPkg
      ⟨"cc:ca:7e:52:cc:34", foreignFrame⟩ (by decide)⟩

/-- C6: with a non-empty registry, a measurement that the scan (filter, then handler)
puts on the channel has the address of its advertisement, that address is a key of the
registry, its name is the registry value of that address, and the frame passed the
family check and the filter. -/
theorem Measurements_within_registry {W : Type} (s : Scanner W) (pkg : SensorPkg) (now : Nat)
    (a : Advertisement) (m : Data) (hne : s.peripherals ≠ [])
    (h : s.Measurements pkg now a = some m) :
    m.Addr = a.Addr ∧ m.Addr ∈ s.peripherals.keys ∧
      s.peripherals.get? m.Addr = some m.Name ∧
      pkg.IsRuuviTag a.ManufacturerData = true ∧ s.filter pkg a = true := by
  unfold Scanner.Measurements at h
  by_cases hf : s.filter pkg a = true
  · rw [if_pos hf] at h
    obtain ⟨hr, hk⟩ := (filter_eq_true_iff s pkg a).1 hf
    obtain ⟨hA, hN, -⟩ := handler_eq_some s pkg now a m h
    have hkey : a.Addr ∈ s.peripherals.keys := hk.resolve_left hne
    have hsome := (lookup_isSome_iff s.peripherals a.Addr).2 hkey
    refine ⟨hA, hA ▸ hkey, ?_, hr, hf⟩
    rw [hA, hN]
    unfold Peripherals.get
    unfold Peripherals.get? at hsome ⊢
    cases hl : List.lookup a.Addr s.peripherals with
    | none => simp [hl] at hsome
    | some v => rfl
  · rw [if_neg hf] at h
    cases h

/-- Witness for C6: the example scanner on an advertisement of its registered address
carrying `exampleFrame`, at time 7. -/
theorem Measurements_within_registry_witness :
    exampleScanner.peripherals ≠ [] ∧
    exampleScanner.Measurements exampleSensorPkg 7 ⟨"cc:ca:7e:52:cc:34", exampleFrame⟩ =
      some { Addr := "cc:ca:7e:52:cc:34", Name := "Backyard", Temperature := 2210 / 100,
             Humidity := 45, Pressure := 1002, Battery := 2755, Timestamp := 7 } ∧
    "cc:ca:7e:52:cc:34" ∈ exampleScanner.peripherals.keys ∧
    exampleScanner.peripherals.get? "cc:ca:7e:52:cc:34" = some "Backyard" := by
  have hm : exampleScanner.Measurements exampleSensorPkg 7
      ⟨"cc:ca:7e:52:cc:34", exampleFrame⟩ =
      some { Addr := "cc:ca:7e:52:cc:34", Name := "Backyard", Temperature := 2210 / 100,
             Humidity := 45, Pressure := 1002, Battery := 2755, Timestamp := 7 } := by
    have hf : exampleScanner.filter exampleSensorPkg
        ⟨"cc:ca:7e:52:cc:34", exampleFrame⟩ = true := by decide
    simp only [Scanner.Measurements, hf, if_true, Scanner.handler, exampleSensorPkg,
      exampleFrame_parsed]
    rfl
  have h := Measurements_within_registry exampleScanner exampleSensorPkg 7
    ⟨"cc:ca:7e:52:cc:34", exampleFrame⟩ _ (by decide) hm
  exact ⟨by decide, hm, h.2.1, h.2.2.1⟩

/-! ## Export -/

theorem exportLoop_spec {W : Type} (es : List (Exporter W)) (w : W) (m : Data) :
    ((exportLoop es w m).err = none ∧ (exportLoop es w m).calls = okCalls es m) ∨
    (∃ (pre : List (Exporter W)) (f : Exporter W) (post : List (Exporter W)) (e : String),
      es = pre ++ f :: post ∧ (exportLoop es w m).err = some e ∧
      (exportLoop es w m).calls =
        okCalls pre m ++ [{ exporter := f.Name, measurement := m, err := some e }]) := by
  induction es generalizing w with
  | nil => left; exact ⟨rfl, rfl⟩
  | cons x xs ih =>
    rcases hx : x.Export w m with ⟨w1, _ | err⟩
    · have hr : exportLoop (x :: xs) w m =
          { world := (exportLoop xs w1 m).world
            calls := { exporter := x.Name, measurement := m, err := none } ::
              (exportLoop xs w1 m).calls
            err := (exportLoop xs w1 m).err } := by
        simp only [exportLoop, hx]
      rw [hr]
      rcases ih w1 with ⟨h1, h2⟩ | ⟨pre, f, post, e, h1, h2, h3⟩
      · left
        exact ⟨h1, by simp only [h2, okCalls, List.map_cons]⟩
      · right
        refine ⟨x :: pre, f, post, e, by simp only [h1, List.cons_append], h2, ?_⟩
        simp only [h3, okCalls, List.map_cons, List.cons_append]
    · have hr : exportLoop (x :: xs) w m =
          { world := w1
            calls := [{ exporter := x.Name, measurement := m, err := some err }]
            err := some err } := by
        simp only [exportLoop, hx]
      rw [hr]
      right
      exact ⟨[], x, xs, err, rfl, rfl, rfl⟩

theorem doExportContinuously_blocks {W : Type} (s : Scanner W) (w : W) (ms : List Data) :
    ∃ blocks : List (List ExportCall),
      List.Forall₂ (fun m b => ∃ w0, b = (s.export w0 m).calls) ms blocks ∧
      (s.doExportContinuously w ms).calls = blocks.flatten ∧
      (s.doExportContinuously w ms).exported = ms ∧
      (s.doExportContinuously w ms).returned = false := by
  induction ms generalizing w with
  | nil => exact ⟨[], List.Forall₂.nil, rfl, rfl, rfl⟩
  | cons m ms ih =>
    obtain ⟨blocks, hb, hc, he, hr⟩ := ih (s.export w m).world
    refine ⟨(s.export w m).calls :: blocks, List.Forall₂.cons ⟨w, rfl⟩ hb, ?_, ?_, ?_⟩
    · simp only [Scanner.doExportContinuously, hc, List.flatten]
    · simp only [Scanner.doExportContinuously, he]
    · simp only [Scanner.doExportContinuously, hr]

theorem doExportLoop_blocks {W : Type} (s : Scanner W) (evs : List ExportEvent) :
    ∀ (w : W) (seen : List String),
      ∃ blocks : List (List ExportCall),
        List.Forall₂ (fun m b => ∃ w0, b = (s.export w0 m).calls)
          (doExportLoop s w seen evs).exported blocks ∧
        (doExportLoop s w seen evs).calls = blocks.flatten := by
  induction evs with
  | nil => intro w seen; exact ⟨[], List.Forall₂.nil, rfl⟩
  | cons ev evs ih =>
    intro w seen
    cases ev with
    | closed => exact ⟨[], List.Forall₂.nil, rfl⟩
    | ctxDone => exact ⟨[], List.Forall₂.nil, rfl⟩
    | done => exact ⟨[], List.Forall₂.nil, rfl⟩
    | measurement m =>
      by_cases hc : (decide (s.peripherals.length > 0) &&
          ContainsKeys s.peripherals (seen.insert m.Addr)) = true
      · refine ⟨[(s.export w m).calls], ?_, ?_⟩
        · simp only [doExportLoop, hc, if_true]
          exact List.Forall₂.cons ⟨w, rfl⟩ List.Forall₂.nil
        · simp only [doExportLoop, hc, if_true, List.flatten, List.append_nil]
      · obtain ⟨blocks, hb, hcalls⟩ := ih (s.export w m).world (seen.insert m.Addr)
        rw [Bool.not_eq_true] at hc
        refine ⟨(s.export w m).calls :: blocks, ?_, ?_⟩
        · simp only [doExportLoop, hc, Bool.false_eq_true, if_false]
          exact List.Forall₂.cons ⟨w, rfl⟩ hb
        · simp only [doExportLoop, hc, Bool.false_eq_true, if_false, hcalls, List.flatten]

/-- C7: `Scanner.export` calls `Export` on the sinks in registration order: either no
sink fails, every sink is called and no error is returned; or the sinks before the first
failing one are called and succeed, the failing one is called last, its error is
returned and no later sink is called.  The continuous export loop runs one such
`export`, from the first sink, for every measurement in arrival order, whatever the
previous one returned, and so does the run-once loop for the measurements it exports.
With sinks `A`, `B`, `C` and `A` failing on the first
measurement only, the calls are `A` for the first measurement, then `A`, `B`, `C` for
the second. -/
theorem Scanner_export_order :
    (∀ (W : Type) (s : Scanner W) (w : W) (m : Data),
      ((s.export w m).err = none ∧ (s.export w m).calls = okCalls s.Exporters m) ∨
      (∃ (pre : List (Exporter W)) (f : Exporter W) (post : List (Exporter W)) (e : String),
        s.Exporters = pre ++ f :: post ∧ (s.export w m).err = some e ∧
        (s.export w m).calls =
          okCalls pre m ++ [{ exporter := f.Name, measurement := m, err := some e }])) ∧
    (∀ (W : Type) (s : Scanner W) (w : W) (ms : List Data),
      ∃ blocks : List (List ExportCall),
        List.Forall₂ (fun m b => ∃ w0, b = (s.export w0 m).calls) ms blocks ∧
        (s.doExportContinuously w ms).calls = blocks.flatten ∧
        (s.doExportContinuously w ms).exported = ms ∧
        (s.doExportContinuously w ms).returned = false) ∧
    (∀ (W : Type) (s : Scanner W) (w : W) (evs : List ExportEvent),
      ∃ blocks : List (List ExportCall),
        List.Forall₂ (fun m b => ∃ w0, b = (s.export w0 m).calls)
          (s.doExport w evs).exported blocks ∧
        (s.doExport w evs).calls = blocks.flatten) ∧
    ((abcScanner.export 0 (measurementFrom "aa:aa")).err = some "export failed" ∧
      (abcScanner.doExportContinuously 0
          [measurementFrom "aa:aa", measurementFrom "bb:bb"]).calls =
        [ { exporter := "A", measurement := measurementFrom "aa:aa",
            err := some "export failed" },
          { exporter := "A", measurement := measurementFrom "bb:bb", err := none },
          { exporter := "B", measurement := measurementFrom "bb:bb", err := none },
          { exporter := "C", measurement := measurementFrom "bb:bb", err := none } ] ∧
      (abcScanner.doExportContinuously 0
          [measurementFrom "aa:aa", measurementFrom "bb:bb"]).logged = ["export failed"]) := by
  refine ⟨fun W s w m => exportLoop_spec s.Exporters w m,
    fun W s w ms => doExportContinuously_blocks s w ms,
    fun W s w evs => doExportLoop_blocks s evs w [], rfl, rfl, rfl⟩

/-! ## Run-once export loop -/

theorem ContainsKeys_iff (peripherals : Peripherals) (seen : List String) :
    ContainsKeys peripherals seen = true ↔ ∀ k ∈ peripherals.keys, k ∈ seen := by
  simp [ContainsKeys, List.all_eq_true]

theorem doExportLoop_cons_continue {W : Type} (s : Scanner W) (w : W) (seen : List String)
    (m : Data) (evs : List ExportEvent)
    (hck : ContainsKeys s.peripherals (seen.insert m.Addr) = false) :
    (doExportLoop s w seen (ExportEvent.measurement m :: evs)).exported =
      m :: (doExportLoop s (s.export w m).world (seen.insert m.Addr) evs).exported ∧
    (doExportLoop s w seen (ExportEvent.measurement m :: evs)).signalled =
      (doExportLoop s (s.export w m).world (seen.insert m.Addr) evs).signalled ∧
    (doExportLoop s w seen (ExportEvent.measurement m :: evs)).returned =
      (doExportLoop s (s.export w m).world (seen.insert m.Addr) evs).returned := by
  simp only [doExportLoop, hck, Bool.and_false, Bool.false_eq_true, if_false, and_self]

theorem doExportLoop_prefix {W : Type} (s : Scanner W) (ms : List Data) :
    ∀ (w : W) (seen : List String) (evs : List ExportEvent),
      ¬ (∀ k ∈ s.peripherals.keys, k ∈ seen ∨ k ∈ ms.map (fun m => m.Addr)) →
      ∃ (w1 : W) (seen1 : List String),
        (∀ k, k ∈ seen1 ↔ k ∈ seen ∨ k ∈ ms.map (fun m => m.Addr)) ∧
        (doExportLoop s w seen (ms.map ExportEvent.measurement ++ evs)).exported =
          ms ++ (doExportLoop s w1 seen1 evs).exported ∧
        (doExportLoop s w seen (ms.map ExportEvent.measurement ++ evs)).signalled =
          (doExportLoop s w1 seen1 evs).signalled ∧
        (doExportLoop s w seen (ms.map ExportEvent.measurement ++ evs)).returned =
          (doExportLoop s w1 seen1 evs).returned := by
  induction ms with
  | nil =>
    intro w seen evs _
    exact ⟨w, seen, by simp, rfl, rfl, rfl⟩
  | cons m ms ih =>
    intro w seen evs hnot
    have hnc : ¬ (∀ k ∈ s.peripherals.keys, k ∈ seen.insert m.Addr) := by
      intro hall
      apply hnot
      intro k hk
      rcases List.mem_insert_iff.1 (hall k hk) with h | h
      · right; simp [h]
      · left; exact h
    have hck : ContainsKeys s.peripherals (seen.insert m.Addr) = false := by
      rw [← Bool.not_eq_true, ContainsKeys_iff]; exact hnc
    have hnot2 : ¬ (∀ k ∈ s.peripherals.keys,
        k ∈ seen.insert m.Addr ∨ k ∈ ms.map (fun m => m.Addr)) := by
      intro hall
      apply hnot
      intro k hk
      rcases hall k hk with h | h
      · rcases List.mem_insert_iff.1 h with h | h
        · right; simp [h]
        · left; exact h
      · right; simp only [List.map_cons, List.mem_cons]; right; exact h
    obtain ⟨w1, seen1, hs, he, hsig, hret⟩ :=
      ih (s.export w m).world (seen.insert m.Addr) evs hnot2
    refine ⟨w1, seen1, ?_, ?_, ?_, ?_⟩
    · intro k
      rw [hs k, List.mem_insert_iff]
      simp only [List.map_cons, List.mem_cons]
      tauto
    · rw [List.map_cons, List.cons_append, (doExportLoop_cons_continue s w seen m _ hck).1, he]
      rfl
    · rw [List.map_cons, List.cons_append, (doExportLoop_cons_continue s w seen m _ hck).2.1,
        hsig]
    · rw [List.map_cons, List.cons_append, (doExportLoop_cons_continue s w seen m _ hck).2.2,
        hret]

theorem doExportLoop_completing {W : Type} (s : Scanner W) (w : W) (seen : List String)
    (m : Data) (evs : List ExportEvent) (hne : s.peripherals ≠ [])
    (hall : ∀ k ∈ s.peripherals.keys, k ∈ seen.insert m.Addr) :
    (doExportLoop s w seen (ExportEvent.measurement m :: evs)).exported = [m] ∧
    (doExportLoop s w seen (ExportEvent.measurement m :: evs)).signalled = true ∧
    (doExportLoop s w seen (ExportEvent.measurement m :: evs)).returned = true := by
  have hlen : s.peripherals.length > 0 := List.length_pos.2 hne
  have hck : ContainsKeys s.peripherals (seen.insert m.Addr) = true :=
    (ContainsKeys_iff _ _).2 hall
  simp only [doExportLoop, hlen, hck, decide_True, Bool.and_self, if_true, and_self]

/-- C8: with a non-empty registry, run on the measurements `ms` in arrival order,
`doExport` (a) at the first position `n` where every registry address has produced a
measurement among `ms[0..n]` has exported exactly `ms[0..n]`, in order, has signalled
completion and has returned, so nothing later is exported; (b) while some registry
address has not appeared in `ms`, it has exported all of `ms`, has not signalled and is
still running; (c) in that case it returns without signalling when the context ends. -/
theorem doExport_completion {W : Type} (s : Scanner W) (w : W) (ms : List Data)
    (hne : s.peripherals ≠ []) :
    (∀ n, n < ms.length → allSeen s.peripherals (ms.take (n + 1)) →
      ¬ allSeen s.peripherals (ms.take n) →
        (s.doExport w (ms.map ExportEvent.measurement)).exported = ms.take (n + 1) ∧
        (s.doExport w (ms.map ExportEvent.measurement)).signalled = true ∧
        (s.doExport w (ms.map ExportEvent.measurement)).returned = true) ∧
    (¬ allSeen s.peripherals ms →
        (s.doExport w (ms.map ExportEvent.measurement)).exported = ms ∧
        (s.doExport w (ms.map ExportEvent.measurement)).signalled = false ∧
        (s.doExport w (ms.map ExportEvent.measurement)).returned = false) ∧
    (¬ allSeen s.peripherals ms →
        (s.doExport w (ms.map ExportEvent.measurement ++ [ExportEvent.ctxDone])).exported = ms ∧
        (s.doExport w (ms.map ExportEvent.measurement ++ [ExportEvent.ctxDone])).signalled
          = false ∧
        (s.doExport w (ms.map ExportEvent.measurement ++ [ExportEvent.ctxDone])).returned
          = true) := by
  have conv : ∀ l : List Data, ¬ allSeen s.peripherals l →
      ¬ (∀ k ∈ s.peripherals.keys, k ∈ ([] : List String) ∨ k ∈ l.map (fun m => m.Addr)) := by
    intro l h hall
    apply h
    intro k hk
    rcases hall k hk with h1 | h1
    · cases h1
    · exact h1
  refine ⟨?_, ?_, ?_⟩
  · intro n hn hcov hncov
    obtain ⟨w1, seen1, hs, he, hsig, hret⟩ :=
      doExportLoop_prefix s (ms.take n) w [] (ExportEvent.measurement (ms.get ⟨n, hn⟩) ::
        (ms.drop (n + 1)).map ExportEvent.measurement) (conv _ hncov)
    have hsplit : ms.map ExportEvent.measurement =
        (ms.take n).map ExportEvent.measurement ++
          (ExportEvent.measurement (ms.get ⟨n, hn⟩) ::
            (ms.drop (n + 1)).map ExportEvent.measurement) := by
      rw [← List.map_cons, ← List.map_append]
      congr 1
      have h1 : ms.drop n = ms.get ⟨n, hn⟩ :: ms.drop (n + 1) := by
        rw [List.drop_eq_getElem_cons hn]; rfl
      rw [← h1, List.take_append_drop]
    have htake : ms.take (n + 1) = ms.take n ++ [ms.get ⟨n, hn⟩] := by
      rw [List.take_succ, List.getElem?_eq_getElem hn]; rfl
    have hall : ∀ k ∈ s.peripherals.keys, k ∈ seen1.insert (ms.get ⟨n, hn⟩).Addr := by
      intro k hk
      have := hcov k hk
      rw [htake, List.map_append, List.mem_append] at this
      rw [List.mem_insert_iff, hs k]
      rcases this with h | h
      · right; right; exact h
      · left; simpa using h
    obtain ⟨c1, c2, c3⟩ := doExportLoop_completing s w1 seen1 (ms.get ⟨n, hn⟩)
      ((ms.drop (n + 1)).map ExportEvent.measurement) hne hall
    unfold Scanner.doExport
    rw [hsplit, he, hsig, hret, c1, c2, c3, htake]
    exact ⟨rfl, rfl, rfl⟩
  · intro hncov
    obtain ⟨w1, seen1, -, he, hsig, hret⟩ := doExportLoop_prefix s ms w [] [] (conv _ hncov)
    rw [List.append_nil] at he hsig hret
    unfold Scanner.doExport
    rw [he, hsig, hret]
    simp [doExportLoop]
  · intro hncov
    obtain ⟨w1, seen1, -, he, hsig, hret⟩ :=
      doExportLoop_prefix s ms w [] [ExportEvent.ctxDone] (conv _ hncov)
    unfold Scanner.doExport
    rw [he, hsig, hret]
    simp [doExportLoop]

/-- Witness for C8: the two-address registry of `abcScanner`.  On measurements from
`aa:aa`, `aa:aa`, `bb:bb`, `aa:aa` the loop completes at the third, the first at which
both addresses have been seen; on measurements from `aa:aa` only it does not complete. -/
theorem doExport_completion_witness :
    abcScanner.peripherals ≠ [] ∧
    ((abcScanner.doExport 0 ([measurementFrom "aa:aa", measurementFrom "aa:aa",
        measurementFrom "bb:bb", measurementFrom "aa:aa"].map
          ExportEvent.measurement)).exported =
        [measurementFrom "aa:aa", measurementFrom "aa:aa", measurementFrom "bb:bb"] ∧
      (abcScanner.doExport 0 ([measurementFrom "aa:aa", measurementFrom "aa:aa",
        measurementFrom "bb:bb", measurementFrom "aa:aa"].map
          ExportEvent.measurement)).signalled = true ∧
      (abcScanner.doExport 0 ([measurementFrom "aa:aa", measurementFrom "aa:aa",
        measurementFrom "bb:bb", measurementFrom "aa:aa"].map
          ExportEvent.measurement)).returned = true) ∧
    ((abcScanner.doExport 0 ([measurementFrom "aa:aa", measurementFrom "aa:aa"].map
          ExportEvent.measurement)).exported =
        [measurementFrom "aa:aa", measurementFrom "aa:aa"] ∧
      (abcScanner.doExport 0 ([measurementFrom "aa:aa", measurementFrom "aa:aa"].map
          ExportEvent.measurement)).signalled = false ∧
      (abcScanner.doExport 0 ([measurementFrom "aa:aa", measurementFrom "aa:aa"].map
          ExportEvent.measurement)).returned = false) :=
  ⟨by decide,
   (doExport_completion abcScanner 0 [measurementFrom "aa:aa", measurementFrom "aa:aa",
      measurementFrom "bb:bb", measurementFrom "aa:aa"] (by decide)).1 2 (by decide)
      (by decide) (by decide),
   (doExport_completion abcScanner 0 [measurementFrom "aa:aa", measurementFrom "aa:aa"]
      (by decide)).2.1 (by decide)⟩

/-! ## Interval entry point -/

/-- C10 (the code at the failing input): `ScanWithInterval` returns an error exactly
for the interval zero.  For the negative interval of `-1` nanosecond it returns no error
and starts the background goroutine, although `runAsDaemon` treats the same interval as
not greater than zero. -/
theorem ScanWithInterval_negative_accepted :
    (∀ d : Int, (Scanner.ScanWithInterval d).err.isSome = true ↔ d = 0) ∧
    (∀ d : Int, (Scanner.ScanWithInterval d).started = true ↔ d ≠ 0) ∧
    Scanner.ScanWithInterval (-1) = { err := none, started := true } ∧
    runAsDaemonUsesInterval (-1) = false := by
  refine ⟨fun d => ?_, fun d => ?_, rfl, rfl⟩
  · unfold Scanner.ScanWithInterval
    by_cases h : d = 0 <;> simp [h]
  · unfold Scanner.ScanWithInterval
    by_cases h : d = 0 <;> simp [h]

/-! ## Registry input -/

theorem cutAt_eq_none_iff (sep : Char) (l : List Char) : cutAt sep l = none ↔ sep ∉ l := by
  induction l with
  | nil => simp [cutAt]
  | cons c cs ih =>
    by_cases h : c = sep
    · simp [cutAt, h]
    · have h2 : ¬ sep = c := fun e => h e.symm
      simp [cutAt, h, h2, ih]

theorem cutAt_eq_some_iff (sep : Char) (l a b : List Char) :
    cutAt sep l = some (a, b) ↔ l = a ++ sep :: b ∧ sep ∉ a := by
  induction l generalizing a with
  | nil => simp [cutAt]
  | cons c cs ih =>
    by_cases h : c = sep
    · subst h
      simp only [cutAt, if_true, Option.some.injEq, Prod.mk.injEq]
      constructor
      · rintro ⟨rfl, rfl⟩
        exact ⟨rfl, by simp⟩
      · rintro ⟨h1, h2⟩
        cases a with
        | nil =>
          simp only [List.nil_append, List.cons.injEq, true_and] at h1
          exact ⟨rfl, h1⟩
        | cons x xs =>
          simp only [List.cons_append, List.cons.injEq] at h1
          exact absurd (h1.1 ▸ List.mem_cons_self _ _) h2
    · simp only [cutAt, h, if_false, Option.map_eq_some', Prod.mk.injEq, Prod.exists]
      constructor
      · rintro ⟨a1, b1, h1, rfl, rfl⟩
        obtain ⟨e1, e2⟩ := (ih a1).1 h1
        refine ⟨by rw [e1]; rfl, ?_⟩
        intro hm
        rcases List.mem_cons.1 hm with hm | hm
        · exact h hm.symm
        · exact e2 hm
      · rintro ⟨h1, h2⟩
        cases a with
        | nil =>
          simp only [List.nil_append, List.cons.injEq] at h1
          exact absurd h1.1 h
        | cons x xs =>
          simp only [List.cons_append, List.cons.injEq] at h1
          obtain ⟨rfl, h3⟩ := h1
          exact ⟨xs, b, (ih xs).2 ⟨h3, fun hm => h2 (List.mem_cons_of_mem _ hm)⟩, rfl, rfl⟩

theorem parseRuuviTagsLoop_cons_none (pkg : StringsPkg) (m : Peripherals) (rt : String)
    (rest : List String) (h : cutAt '=' rt.toList = none) :
    parseRuuviTagsLoop pkg m (rt :: rest) = .error ("invalid RuuviTag entry: " ++ rt) := by
  have hs : SplitN rt '=' = [rt] := by unfold SplitN; rw [h]
  simp [parseRuuviTagsLoop, hs]

theorem parseRuuviTagsLoop_cons_some (pkg : StringsPkg) (m : Peripherals) (rt : String)
    (rest : List String) (a b : List Char) (h : cutAt '=' rt.toList = some (a, b)) :
    parseRuuviTagsLoop pkg m (rt :: rest) =
      parseRuuviTagsLoop pkg
        (m.set (pkg.ToLower (pkg.TrimSpace (String.mk a))) (pkg.TrimSpace (String.mk b))) rest := by
  have hs : SplitN rt '=' = [String.mk a, String.mk b] := by unfold SplitN; rw [h]
  simp [parseRuuviTagsLoop, hs]

theorem lookup_filter_ne (m : Peripherals) (k k1 : String) (h : k1 ≠ k) :
    List.lookup k1 (m.filter (fun kv => kv.1 != k)) = List.lookup k1 m := by
  induction m with
  | nil => rfl
  | cons kv rest ih =>
    obtain ⟨x, y⟩ := kv
    by_cases hx : x = k
    · subst hx
      have hb : (k1 == x) = false := by simpa using h
      simp [List.filter, List.lookup, hb, ih]
    · have hne : (x != k) = true := by simpa using hx
      by_cases hk : k1 = x
      · subst hk
        simp [List.filter, hne, List.lookup]
      · have hb : (k1 == x) = false := by simpa using hk
        simp [List.filter, hne, List.lookup, hb, ih]

theorem get?_set (m : Peripherals) (k v k1 : String) :
    (m.set k v).get? k1 = if k1 = k then some v else m.get? k1 := by
  unfold Peripherals.set Peripherals.get?
  by_cases h : k1 = k
  · subst h; simp [List.lookup]
  · have hb : (k1 == k) = false := by simpa using h
    simp only [List.lookup, hb, h, if_false]
    exact lookup_filter_ne m k k1 h

theorem entryOf_iff (pkg : StringsPkg) (rt : String) (a b : List Char)
    (h : cutAt '=' rt.toList = some (a, b)) (k v : String) :
    entryOf pkg rt k v ↔
      k = pkg.ToLower (pkg.TrimSpace (String.mk a)) ∧ v = pkg.TrimSpace (String.mk b) := by
  constructor
  · rintro ⟨before, after, h1, h2, h3, h4⟩
    have h5 := (cutAt_eq_some_iff '=' rt.toList before after).2 ⟨h1, h2⟩
    rw [h] at h5
    simp only [Option.some.injEq, Prod.mk.injEq] at h5
    obtain ⟨rfl, rfl⟩ := h5
    exact ⟨h3, h4⟩
  · rintro ⟨h3, h4⟩
    obtain ⟨h1, h2⟩ := (cutAt_eq_some_iff '=' rt.toList a b).1 h
    exact ⟨a, b, h1, h2, h3, h4⟩

theorem not_entryOf_of_none (pkg : StringsPkg) (rt : String)
    (h : cutAt '=' rt.toList = none) (k v : String) : ¬ entryOf pkg rt k v := by
  rintro ⟨before, after, h1, -, -, -⟩
  have := (cutAt_eq_none_iff '=' rt.toList).1 h
  apply this
  rw [h1]
  simp

theorem parseRuuviTagsLoop_error_iff (pkg : StringsPkg) (tags : List String) :
    ∀ m : Peripherals, (∃ e, parseRuuviTagsLoop pkg m tags = .error e) ↔
      ∃ rt ∈ tags, '=' ∉ rt.toList := by
  induction tags with
  | nil => intro m; simp [parseRuuviTagsLoop]
  | cons rt rest ih =>
    intro m
    cases hc : cutAt '=' rt.toList with
    | none =>
      rw [parseRuuviTagsLoop_cons_none pkg m rt rest hc]
      have := (cutAt_eq_none_iff '=' rt.toList).1 hc
      constructor
      · intro _; exact ⟨rt, List.mem_cons_self _ _, this⟩
      · intro _; exact ⟨_, rfl⟩
    | some ab =>
      obtain ⟨a, b⟩ := ab
      rw [parseRuuviTagsLoop_cons_some pkg m rt rest a b hc, ih]
      have hin : '=' ∈ rt.toList := by
        by_contra hn
        rw [(cutAt_eq_none_iff '=' rt.toList).2 hn] at hc
        cases hc
      constructor
      · rintro ⟨x, hx, hn⟩
        exact ⟨x, List.mem_cons_of_mem _ hx, hn⟩
      · rintro ⟨x, hx, hn⟩
        rcases List.mem_cons.1 hx with rfl | hx
        · exact absurd hin hn
        · exact ⟨x, hx, hn⟩

theorem parseRuuviTagsLoop_ok (pkg : StringsPkg) (tags : List String) :
    ∀ (m r : Peripherals), parseRuuviTagsLoop pkg m tags = .ok r →
      ∀ k v : String, r.get? k = some v ↔
        (∃ (pre : List String) (rt : String) (post : List String),
          tags = pre ++ rt :: post ∧ entryOf pkg rt k v ∧
          ∀ x ∈ post, ∀ v2, ¬ entryOf pkg x k v2) ∨
        ((∀ x ∈ tags, ∀ v2, ¬ entryOf pkg x k v2) ∧ m.get? k = some v) := by
  induction tags with
  | nil =>
    intro m r h k v
    simp only [parseRuuviTagsLoop, Except.ok.injEq] at h
    subst h
    constructor
    · intro hg; exact Or.inr ⟨fun x hx => absurd hx (List.not_mem_nil x), hg⟩
    · rintro (⟨pre, rt, post, h1, -, -⟩ | ⟨-, hg⟩)
      · cases pre <;> cases h1
      · exact hg
  | cons rt rest ih =>
    intro m r h k v
    cases hc : cutAt '=' rt.toList with
    | none =>
      rw [parseRuuviTagsLoop_cons_none pkg m rt rest hc] at h
      cases h
    | some ab =>
      obtain ⟨a, b⟩ := ab
      rw [parseRuuviTagsLoop_cons_some pkg m rt rest a b hc] at h
      have E := entryOf_iff pkg rt a b hc
      rw [ih _ r h k v, get?_set]
      constructor
      · rintro (⟨pre, x, post, h1, h2, h3⟩ | ⟨hnone, hg⟩)
        · exact Or.inl ⟨rt :: pre, x, post, by rw [h1]; rfl, h2, h3⟩
        · by_cases hk : k = pkg.ToLower (pkg.TrimSpace (String.mk a))
          · rw [if_pos hk] at hg
            simp only [Option.some.injEq] at hg
            exact Or.inl ⟨[], rt, rest, rfl, (E k v).2 ⟨hk, hg.symm⟩, hnone⟩
          · rw [if_neg hk] at hg
            refine Or.inr ⟨?_, hg⟩
            intro x hx v2 he
            rcases List.mem_cons.1 hx with rfl | hx
            · exact hk ((E k v2).1 he).1
            · exact hnone x hx v2 he
      · rintro (⟨pre, x, post, h1, h2, h3⟩ | ⟨hall, hg⟩)
        · cases pre with
          | nil =>
            simp only [List.nil_append, List.cons.injEq] at h1
            obtain ⟨rfl, rfl⟩ := h1
            obtain ⟨hk, hv⟩ := (E k v).1 h2
            exact Or.inr ⟨h3, by rw [if_pos hk, hv]⟩
          | cons p pre1 =>
            simp only [List.cons_append, List.cons.injEq] at h1
            exact Or.inl ⟨pre1, x, post, h1.2, h2, h3⟩
        · have hk : ¬ k = pkg.ToLower (pkg.TrimSpace (String.mk a)) := by
            intro hk
            exact hall rt (List.mem_cons_self _ _) _ ((E k _).2 ⟨hk, rfl⟩)
          exact Or.inr ⟨fun x hx => hall x (List.mem_cons_of_mem _ hx), by rw [if_neg hk]; exact hg⟩

theorem exists_last_of_exists {α : Type} (P : α → Prop) (l : List α) (h : ∃ x ∈ l, P x) :
    ∃ (pre : List α) (x : α) (post : List α), l = pre ++ x :: post ∧ P x ∧ ∀ y ∈ post, ¬ P y := by
  induction l with
  | nil => obtain ⟨x, hx, -⟩ := h; cases hx
  | cons a rest ih =>
    by_cases hr : ∃ x ∈ rest, P x
    · obtain ⟨pre, x, post, h1, h2, h3⟩ := ih hr
      exact ⟨a :: pre, x, post, by rw [h1]; rfl, h2, h3⟩
    · obtain ⟨x, hx, hp⟩ := h
      rcases List.mem_cons.1 hx with rfl | hx
      · exact ⟨[], x, rest, rfl, hp, fun y hy hpy => hr ⟨y, hy, hpy⟩⟩
      · exact absurd ⟨x, hx, hp⟩ hr

/-- C11: `parseRuuviTags` fails exactly when some entry contains no `=`.  When it
returns a registry, a key `k` is mapped to `v` exactly when the last entry whose text
before its first `=`, trimmed and lower-cased, is `k` has `v` as the trimmed text after
that `=`; and the keys are exactly the normalised addresses of the entries. -/
theorem parseRuuviTags_registry :
    (∀ (pkg : StringsPkg) (tags : List String),
      (∃ e, parseRuuviTags pkg tags = .error e) ↔ ∃ rt ∈ tags, '=' ∉ rt.toList) ∧
    (∀ (pkg : StringsPkg) (tags : List String) (m : Peripherals),
      parseRuuviTags pkg tags = .ok m →
        (∀ k v : String, m.get? k = some v ↔
          ∃ (pre : List String) (rt : String) (post : List String),
            tags = pre ++ rt :: post ∧ entryOf pkg rt k v ∧
            ∀ x ∈ post, ∀ v2, ¬ entryOf pkg x k v2) ∧
        (∀ k : String, k ∈ m.keys ↔ ∃ rt ∈ tags, ∃ v, entryOf pkg rt k v)) := by
  have key : ∀ (pkg : StringsPkg) (tags : List String) (m : Peripherals),
      parseRuuviTags pkg tags = .ok m →
        ∀ k v : String, m.get? k = some v ↔
          ∃ (pre : List String) (rt : String) (post : List String),
            tags = pre ++ rt :: post ∧ entryOf pkg rt k v ∧
            ∀ x ∈ post, ∀ v2, ¬ entryOf pkg x k v2 := by
    intro pkg tags m h k v
    rw [parseRuuviTagsLoop_ok pkg tags [] m h k v]
    constructor
    · rintro (h1 | ⟨-, h2⟩)
      · exact h1
      · simp [Peripherals.get?] at h2
    · intro h1; exact Or.inl h1
  refine ⟨fun pkg tags => parseRuuviTagsLoop_error_iff pkg tags [], ?_⟩
  intro pkg tags m h
  refine ⟨key pkg tags m h, ?_⟩
  intro k
  rw [← lookup_isSome_iff, Option.isSome_iff_exists]
  constructor
  · rintro ⟨v, hv⟩
    obtain ⟨pre, rt, post, h1, h2, -⟩ := (key pkg tags m h k v).1 hv
    exact ⟨rt, by rw [h1]; simp, v, h2⟩
  · intro hex
    obtain ⟨pre, rt, post, h1, ⟨v, h2⟩, h3⟩ :=
      exists_last_of_exists (fun x => ∃ v, entryOf pkg x k v) tags hex
    exact ⟨v, (key pkg tags m h k v).2
      ⟨pre, rt, post, h1, h2, fun x hx v2 he => h3 x hx ⟨v2, he⟩⟩⟩

/-- Witness for C11: on ` CC:CA = Backyard `, `dd:ee=x=y`, `cc:ca=Attic` the registry
maps `cc:ca` to `Attic`, the later of its two entries, and `dd:ee` to `x=y`; the list
with the entry `nothing` is refused. -/
theorem parseRuuviTags_registry_witness :
    parseRuuviTags asciiStrings [" CC:CA = Backyard ", "dd:ee=x=y", "cc:ca=Attic"] =
      .ok [("cc:ca", "Attic"), ("dd:ee", "x=y")] ∧
    Peripherals.get? [("cc:ca", "Attic"), ("dd:ee", "x=y")] "cc:ca" = some "Attic" ∧
    (∃ e, parseRuuviTags asciiStrings ["aa:bb=Cellar", "nothing"] = .error e) :=
  ⟨rfl,
   ((parseRuuviTags_registry.2 asciiStrings
      [" CC:CA = Backyard ", "dd:ee=x=y", "cc:ca=Attic"]
      [("cc:ca", "Attic"), ("dd:ee", "x=y")] rfl).1 "cc:ca" "Attic").2
      ⟨[" CC:CA = Backyard ", "dd:ee=x=y"], "cc:ca=Attic", [], rfl,
        ⟨"cc:ca".toList, "Attic".toList, rfl, by decide, rfl, rfl⟩,
        fun x hx => absurd hx (List.not_mem_nil x)⟩,
   (parseRuuviTags_registry.1 asciiStrings ["aa:bb=Cellar", "nothing"]).2
      ⟨"nothing", by simp, by decide⟩⟩

/-! ## Interval goroutine -/

theorem listenLoop_nil_ticks (events : List IntervalEvent) :
    ∀ f t : Nat,
      (listenLoop f t (events.map (fun ev =>
        match ev with
        | .tick _ => ListenEvent.tick ScanErr.nil
        | .ctxDone => ListenEvent.ctxDone
        | .quit => ListenEvent.quit))).failures = f ∧
      (listenLoop f t (events.map (fun ev =>
        match ev with
        | .tick _ => ListenEvent.tick ScanErr.nil
        | .ctxDone => ListenEvent.ctxDone
        | .quit => ListenEvent.quit))).status ≠ ListenStatus.fatal := by
  induction events with
  | nil => intro f t; exact ⟨rfl, by simp [listenLoop]⟩
  | cons ev rest ih =>
    intro f t
    cases ev with
    | tick evs => simpa [listenLoop] using ih f (t + 1)
    | ctxDone => simp [listenLoop]
    | quit => simp [listenLoop]

theorem ScanOnce_of_ne_nil {W : Type} (s : Scanner W) (w : W) (evs : List ExportEvent)
    (h : s.peripherals ≠ []) :
    s.ScanOnce w evs = { err := none, scan := some (s.doExport w evs) } := by
  have hl : ¬ s.peripherals.length = 0 := fun e => h (List.length_eq_zero.1 e)
  simp [Scanner.ScanOnce, hl]

theorem ScanOnce_of_nil {W : Type} (s : Scanner W) (w : W) (evs : List ExportEvent)
    (h : s.peripherals = []) :
    s.ScanOnce w evs =
      { err := some "at least one peripheral must be specified", scan := none } := by
  simp [Scanner.ScanOnce, h]

/-- C12 (as stated, refuted): with an empty registry and a period of one minute,
`ScanWithInterval` returns no error and starts its goroutine, whose first scan returns
the error of `ScanOnce` for a registry without peripherals; the goroutine logs it and
ends without entering `listen`, although ticks were to come. -/
theorem intervalGoroutine_empty_registry_fails :
    emptyRegistryScanner.peripherals = [] ∧
    Scanner.ScanWithInterval 60000000000 = { err := none, started := true } ∧
    ((emptyRegistryScanner.intervalGoroutine () WakeEvent.firstRun []
        [IntervalEvent.tick [], IntervalEvent.tick []]).firstScan.map (fun r => r.err) =
      some (some "at least one peripheral must be specified")) ∧
    (emptyRegistryScanner.intervalGoroutine () WakeEvent.firstRun []
        [IntervalEvent.tick [], IntervalEvent.tick []]).logged =
      ["at least one peripheral must be specified"] ∧
    (emptyRegistryScanner.intervalGoroutine () WakeEvent.firstRun []
        [IntervalEvent.tick [], IntervalEvent.tick []]).listened = none := by
  exact ⟨rfl, rfl, rfl, rfl, rfl⟩

/-- C12 (amended): for a period greater than zero `ScanWithInterval` returns no error
and starts its goroutine.  The scan the goroutine runs is `ScanOnce`, with its
requirement of at least one configured peripheral: with an empty registry the first
scan fails with the no-peripherals error without scanning, the error is logged and the
goroutine ends without entering `listen`; with a non-empty registry the first scan
returns no error, `listen` is entered, and no scan run by `listen` is counted as a
failure. -/
theorem intervalGoroutine_requires_peripherals {W : Type} (s : Scanner W) (w : W) (d : Int)
    (first : List ExportEvent) (events : List IntervalEvent) (hd : 0 < d) :
    Scanner.ScanWithInterval d = { err := none, started := true } ∧
    (s.peripherals = [] →
      (s.ScanOnce w first).err = some "at least one peripheral must be specified" ∧
      (s.ScanOnce w first).scan.isNone = true ∧
      (s.intervalGoroutine w WakeEvent.firstRun first events).logged =
        ["at least one peripheral must be specified"] ∧
      (s.intervalGoroutine w WakeEvent.firstRun first events).listened = none) ∧
    (s.peripherals ≠ [] →
      (s.ScanOnce w first).err = none ∧
      (s.intervalGoroutine w WakeEvent.firstRun first events).logged = [] ∧
      ∃ st : ListenState,
        (s.intervalGoroutine w WakeEvent.firstRun first events).listened = some st ∧
        st.failures = 0 ∧ st.status ≠ ListenStatus.fatal) := by
  refine ⟨?_, ?_, ?_⟩
  · have h0 : ¬ d = 0 := by omega
    simp [Scanner.ScanWithInterval, h0]
  · intro h
    simp [Scanner.intervalGoroutine, ScanOnce_of_nil s w _ h]
  · intro h
    have hmap : (events.map (fun ev =>
          match ev with
          | .tick evs => ListenEvent.tick (ScanErr.ofError (s.ScanOnce w evs).err)
          | .ctxDone => ListenEvent.ctxDone
          | .quit => ListenEvent.quit)) =
        (events.map (fun ev =>
          match ev with
          | .tick _ => ListenEvent.tick ScanErr.nil
          | .ctxDone => ListenEvent.ctxDone
          | .quit => ListenEvent.quit)) := by
      apply List.map_congr_left
      intro ev _
      cases ev with
      | tick evs => simp [ScanOnce_of_ne_nil s w evs h, ScanErr.ofError]
      | ctxDone => rfl
      | quit => rfl
    obtain ⟨h1, h2⟩ := listenLoop_nil_ticks events 0 0
    refine ⟨by rw [ScanOnce_of_ne_nil s w first h], ?_, ?_⟩
    · simp [Scanner.intervalGoroutine, ScanOnce_of_ne_nil s w first h]
    · refine ⟨_, ?_, h1, h2⟩
      simp only [Scanner.intervalGoroutine, ScanOnce_of_ne_nil s w first h, hmap]
      rfl

/-- Witness for C12 (amended): a period of five minutes, on the scanner with an empty
registry and on the example scanner with one registered address. -/
theorem intervalGoroutine_requires_peripherals_witness :
    (emptyRegistryScanner.intervalGoroutine () WakeEvent.firstRun []
        [IntervalEvent.tick []]).listened = none ∧
    (exampleScanner.intervalGoroutine () WakeEvent.firstRun []
        [IntervalEvent.tick []]).logged = [] :=
  ⟨((intervalGoroutine_requires_peripherals emptyRegistryScanner () 300000000000 []
      [IntervalEvent.tick []] (by decide)).2.1 rfl).2.2.2,
   ((intervalGoroutine_requires_peripherals exampleScanner () 300000000000 []
      [IntervalEvent.tick []] (by decide)).2.2 (by decide)).2.1⟩

/-! ## Interval loop -/

end Gollector
